import Mathlib

/-! The HTTP relay broker of agones-relay-http (`pkg/broker/relay_http.go`).

A shallow embedding of the dispatch pipeline of the relay: the event registry,
the bounded request queues, message admission (`SendMessage`, `EnqueueRequest`),
the worker pool initialisation and the streaming payload reader.

Modelling conventions.

* Go strings are `String`, slices are `List`. Go `int` is the 64 bit signed
  integer: values are `Int`, and the one product of the file,
  `WorkerReplicas*3`, is reduced to the 64 bit range (`wrapInt`). The loop
  counter `i + 1` stays at most the replica count and needs no reduction.
* `make([]T, n)` panics for a negative `n` and for an `n` above the largest
  length the runtime allocates; that length depends on the system and is the
  argument `maxLen` of `NewRelayHTTP`.
* Code that may panic returns a `Run`.
* A Go `map[string]V` is an association list with unique keys (`GoMap`);
  the order in which `range` visits a map is unspecified in Go, so the loop
  of `InitWorkers` takes its iteration order as an argument.
* Buffered channels live in an explicit store (`Heap`); a channel value is an
  index into the store. `make(chan T, n)` appends a fresh channel. An index
  outside the store behaves as the nil channel.
* The Go `error` result is `Option GoError`, `none` being `nil`.
* The header of an envelope is a pointer that is nil until a header is added
  (`Option Header`). The records of the registry, their request queues and the
  envelope handed to `SendMessage` are modelled by values, which leaves the
  nil pointer out of those types.
* Logging and the wait group carry no data used by the operations below and
  are left out of `RelayHTTP`.
-/

set_option autoImplicit false

namespace Broker

/-! ## Errors -/

/-- Go error values as they are built in `relay_http.go`. -/
inductive GoError where
  /-- An error made by `errors.New(msg)`. -/
  | new (msg : String)
  /-- An error made by `fmt.Errorf(before ++ "%q" ++ after, arg)`. -/
  | errorfQ (before : String) (arg : String) (after : String)
  /-- An error made by `errors.Wrap(cause, msg)`. -/
  | wrap (cause : GoError) (msg : String)
  /-- The sentinel `io.EOF`. -/
  | EOF
  /-- The sentinel `io.ErrUnexpectedEOF`. -/
  | ErrUnexpectedEOF
  deriving DecidableEq, Repr

/-- The outcome of Go code that may panic: the result, or the panic with its
message. -/
inductive Run (α : Type) where
  | ok (a : α)
  | panic (reason : String)
  deriving DecidableEq, Repr

/-- The result of a run, `none` for a panic. -/
def Run.toOption {α : Type} : Run α → Option α
  | .ok a => some a
  | .panic _ => none

/-! ## Go maps -/

/-- A Go `map[string]V`: association list, every key at most once. -/
abbrev GoMap (V : Type) := List (String × V)

/-- The map index expression `v, ok := m[k]`. -/
def GoMap.get {V : Type} (m : GoMap V) (k : String) : Option V :=
  match m with
  | [] => none
  | (k', v) :: rest => if k' = k then some v else GoMap.get rest k

/-- The map assignment `m[k] = v`: replaces the entry of `k`, or adds one. -/
def GoMap.set {V : Type} (m : GoMap V) (k : String) (v : V) : GoMap V :=
  match m with
  | [] => [(k, v)]
  | (k', v') :: rest => if k' = k then (k, v) :: rest else (k', v') :: GoMap.set rest k v

/-- The keys of a map. -/
def GoMap.keys {V : Type} (m : GoMap V) : List String := m.map Prod.fst

/-! ## Data model -/

section Model

variable {Msg Client : Type}

/-- Modelled from the spec: `events.Header` belongs to the events library,
which is not part of `relay_http.go`. A header is a mapping from strings to
strings, reached in the code as `envelope.Header.Headers`. -/
structure Header where
  Headers : GoMap String
  deriving DecidableEq, Repr

/-- Modelled from the spec: `events.Envelope` belongs to the events library,
which is not part of `relay_http.go`. An envelope is a header and a message
body that the pipeline does not look into. The code reaches the header through
the pointer `envelope.Header`, which is nil (`none`) on an envelope to which no
header was added. -/
structure Envelope (Msg : Type) where
  Header : Option Header
  Message : Msg
  deriving DecidableEq, Repr

/-- Go: `type Payload struct { Body *events.Envelope }`. -/
structure Payload (Msg : Type) where
  Body : Option (Envelope Msg)
  deriving DecidableEq, Repr

/-- Go: `type RelayRequest struct { Method; Endpoints; Payload }`. -/
structure RelayRequest (Msg : Type) where
  Method : String
  Endpoints : List String
  Payload : Payload Msg
  deriving DecidableEq, Repr

/-- A buffered Go channel of relay requests: its capacity and the requests it
holds, oldest first. -/
structure Chan (Msg : Type) where
  cap : Nat
  buf : List (RelayRequest Msg)
  deriving DecidableEq, Repr

/-- The store of allocated channels. -/
abbrev Heap (Msg : Type) := List (Chan Msg)

/-- A channel value: index into the store. -/
abbrev ChanRef := Nat

/-- Go: `make(chan *RelayRequest, cap)`. -/
def Heap.make (h : Heap Msg) (cap : Nat) : ChanRef × Heap Msg :=
  (h.length, h ++ [{ cap := cap, buf := [] }])

/-- Go: `type RequestQueue struct { Name string; Queue chan *RelayRequest }`. -/
structure RequestQueue where
  Name : String
  Queue : ChanRef
  deriving DecidableEq, Repr

/-- Go: `type EventRelayRecord struct { Method; URL; RequestQueue }`. -/
structure EventRelayRecord where
  Method : String
  URL : List String
  RequestQueue : RequestQueue
  deriving DecidableEq, Repr

/-- Go: `type EventRelayRegistry struct { Records map[string]*EventRelayRecord }`. -/
structure EventRelayRegistry where
  Records : GoMap EventRelayRecord
  deriving DecidableEq, Repr

/-- Go: `type RelayConfig struct`. -/
structure RelayConfig where
  OnAddUrl : String
  OnUpdateUrl : String
  OnDeleteUrl : String
  WorkerReplicas : Int
  deriving DecidableEq, Repr

/-- Modelled from the spec: the `Worker` type and its constructor `NewWorker`
are not part of `relay_http.go`. A worker has an identity (name), a reference
to its assigned queue and a reference to the injected delivery capability. -/
structure Worker (Client : Type) where
  name : String
  queue : RequestQueue
  client : Client
  deriving DecidableEq, Repr

/-- Modelled from the spec: `NewWorker(name, queue, client)`. -/
def NewWorker (name : String) (queue : RequestQueue) (client : Client) : Worker Client :=
  { name := name, queue := queue, client := client }

/-- Go: `type RelayHTTP struct`; a slot of `Workers` is `none` while it holds
the nil pointer. -/
structure RelayHTTP (C : Type) where
  Client : C
  Registry : EventRelayRegistry
  Workers : List (Option (Worker C))
  workerReplicas : Int
  deriving DecidableEq, Repr

/-! ## Registry -/

/-- Go: `func (r *EventRelayRegistry) Register(eventSource, record)`. When the
map is empty a new empty map is made first; then the entry is assigned. -/
def EventRelayRegistry.Register (r : EventRelayRegistry) (eventSource : String)
    (record : EventRelayRecord) : EventRelayRegistry :=
  let records : GoMap EventRelayRecord := if r.Records.length = 0 then [] else r.Records
  { Records := records.set eventSource record }

/-- Go: `func (r *EventRelayRegistry) Get(eventSource)`. -/
def EventRelayRegistry.Get (r : EventRelayRegistry) (eventSource : String) :
    Except GoError EventRelayRecord :=
  match r.Records.get eventSource with
  | none => .error (.errorfQ "event " eventSource " is not registry, sending aborted")
  | some record => .ok record

/-! ## Admission -/

/-- Go: `func getEventSourceHeader(envelope)`. The expression
`envelope.Header.Headers` dereferences the header pointer without a check and
panics when it is nil. -/
def getEventSourceHeader (envelope : Envelope Msg) : Run (Except GoError String) :=
  match envelope.Header with
  | none => .panic "invalid memory address or nil pointer dereference"
  | some header =>
    match header.Headers.get "event_source" with
    | none => .ok (.error (.new "envelope header does not contain a valid event_source"))
    | some eventSource => .ok (.ok eventSource)

/-- Go: `func createRequest(record, envelope)`. -/
def createRequest (record : EventRelayRecord) (envelope : Envelope Msg) : RelayRequest Msg :=
  { Payload := { Body := some envelope }
    Method := record.Method
    Endpoints := record.URL }

/-- Go: `func (r *RelayHTTP) EnqueueRequest(queue, request)`, the `select`
between the channel send and the five second timer.

`drained` tells whether a consumer receives from the channel within the
timeout window. The send goes through at once when the buffer has a free
slot. On a full buffer it goes through only when a consumer frees a slot
(the consumer takes the oldest request; on a channel without buffer the
request is handed over directly), otherwise the timer fires and the request
is dropped. A send on the nil channel never goes through. -/
def EnqueueRequest (h : Heap Msg) (queue : ChanRef) (request : RelayRequest Msg)
    (drained : Bool) : Heap Msg × Option GoError :=
  match h[queue]? with
  | none => (h, some (.new "request could not be enqueued due to timeout"))
  | some c =>
    if c.buf.length < c.cap then
      (h.set queue { c with buf := c.buf ++ [request] }, none)
    else if drained then
      match c.buf with
      | [] => (h, none)
      | _ :: rest => (h.set queue { c with buf := rest ++ [request] }, none)
    else
      (h, some (.new "request could not be enqueued due to timeout"))

/-- Go: `func (r *RelayHTTP) SendMessage(envelope)`. The result is the store
after the call and either the returned error or the panic. -/
def SendMessage (r : RelayHTTP Client) (h : Heap Msg) (envelope : Envelope Msg)
    (drained : Bool) : Heap Msg × Run (Option GoError) :=
  match getEventSourceHeader envelope with
  | .panic reason => (h, .panic reason)
  | .ok (.error err) => (h, .ok (some err))
  | .ok (.ok eventSource) =>
    match r.Registry.Get eventSource with
    | .error err => (h, .ok (some (.wrap err "aborting sending message")))
    | .ok record =>
      match EnqueueRequest h record.RequestQueue.Queue (createRequest record envelope)
          drained with
      | (h₁, err) => (h₁, .ok err)

/-- The channel receive `<-queue` of a consumer: takes the oldest request.
`none` when nothing is buffered (the receive would block). -/
def Heap.recv (h : Heap Msg) (queue : ChanRef) : Option (RelayRequest Msg × Heap Msg) :=
  match h[queue]? with
  | none => none
  | some c =>
    match c.buf with
    | [] => none
    | x :: rest => some (x, h.set queue { c with buf := rest })

/-- A single producer calling `EnqueueRequest` on `queue` once for every
request of `sends`, in order; each request comes with the `drained` answer of
its call. The result is the store at the end and the error of every call. -/
def enqueueAll (h : Heap Msg) (queue : ChanRef) :
    List (RelayRequest Msg × Bool) → Heap Msg × List (Option GoError)
  | [] => (h, [])
  | (request, drained) :: rest =>
    match EnqueueRequest h queue request drained with
    | (h₁, err) =>
      match enqueueAll h₁ queue rest with
      | (h₂, errs) => (h₂, err :: errs)

/-- A consumer receiving `n` times from `queue`: the requests in the order
received and the store at the end; `none` when a receive finds nothing. -/
def recvN (h : Heap Msg) (queue : ChanRef) : Nat → Option (List (RelayRequest Msg) × Heap Msg)
  | 0 => some ([], h)
  | n + 1 =>
    match h.recv queue with
    | none => none
    | some (x, h₁) =>
      match recvN h₁ queue n with
      | none => none
      | some (xs, h₂) => some (x :: xs, h₂)

/-! ## Construction -/

/-- Go `strings.Split` on lists of characters, for a one character separator:
cuts at every occurrence of `sep`; the empty input gives one empty piece. -/
def strings.splitChars (sep : Char) : List Char → List (List Char)
  | [] => [[]]
  | c :: cs =>
    if c = sep then [] :: strings.splitChars sep cs
    else
      match strings.splitChars sep cs with
      | [] => [[c]]
      | piece :: pieces => (c :: piece) :: pieces

/-- Go: `strings.Split(s, sep)` for a separator of one character. -/
def strings.Split (s : String) (sep : Char) : List String :=
  (strings.splitChars sep s.toList).map String.mk

/-- Go: `strconv.Itoa`. -/
def strconv.Itoa (i : Int) : String := toString i

/-- Go: `http.MethodPost`. -/
def http.MethodPost : String := "POST"

/-- Go: `http.MethodPut`. -/
def http.MethodPut : String := "PUT"

/-- Go: `http.MethodDelete`. -/
def http.MethodDelete : String := "DELETE"

/-- The strings of the three event sources of the events library
(`events.EventSourceOnAdd.String()` and its siblings), which is not part of
this repository. -/
structure EventSources where
  OnAdd : String
  OnUpdate : String
  OnDelete : String
  deriving DecidableEq, Repr

/-- The three event sources are different event kinds. -/
def EventSources.Distinct (src : EventSources) : Prop :=
  src.OnAdd ≠ src.OnUpdate ∧ src.OnAdd ≠ src.OnDelete ∧ src.OnUpdate ≠ src.OnDelete

instance (src : EventSources) : Decidable src.Distinct := by
  unfold EventSources.Distinct; infer_instance

/-- The names the events library gives its event sources. -/
def EventSources.library : EventSources :=
  { OnAdd := "OnAdd", OnUpdate := "OnUpdate", OnDelete := "OnDelete" }

/-- Go: `func applyConfigDefaults(config *RelayConfig)`. -/
def applyConfigDefaults (config : RelayConfig) : RelayConfig :=
  if config.WorkerReplicas ≤ 0 then { config with WorkerReplicas := 1 } else config

/-- The value of an `int` expression whose exact value is `x`: `x` reduced
modulo `2^64` into the range from `-2^63` to `2^63 - 1`. -/
def wrapInt (x : Int) : Int := (x + 2 ^ 63) % 2 ^ 64 - 2 ^ 63

/-- Go: `make([]*Worker, len)`: a slice of `len` nil pointers. It panics when
`len` is negative or above `maxLen`, the largest length the runtime allocates
on the running system (the address space bounds it; a length the system has
no memory for ends the program as well). -/
def makeWorkers (maxLen : Nat) (len : Int) : Run (List (Option (Worker Client))) :=
  if len < 0 ∨ (maxLen : Int) < len then .panic "makeslice: len out of range"
  else .ok (List.replicate len.toNat none)

/-- The rest of `NewRelayHTTP` once the worker slice of the struct literal is
made: the three `Register` calls. The three `make` calls for the channels
allocate in the store `h`; the result is the relay and the store after the
allocations. -/
def registerRecords (src : EventSources) (h : Heap Msg) (config : RelayConfig) (client : Client)
    (workers : List (Option (Worker Client))) : RelayHTTP Client × Heap Msg :=
  let registry : EventRelayRegistry := { Records := [] }
  let (qAdd, h) := h.make 1024
  let registry := registry.Register src.OnAdd
    { Method := http.MethodPost
      URL := strings.Split config.OnAddUrl ','
      RequestQueue := { Name := "OnAdd", Queue := qAdd } }
  let (qUpdate, h) := h.make 1024
  let registry := registry.Register src.OnUpdate
    { Method := http.MethodPut
      URL := strings.Split config.OnUpdateUrl ','
      RequestQueue := { Name := "OnUpdate", Queue := qUpdate } }
  let (qDelete, h) := h.make 1024
  let registry := registry.Register src.OnDelete
    { Method := http.MethodDelete
      URL := strings.Split config.OnDeleteUrl ','
      RequestQueue := { Name := "OnDelete", Queue := qDelete } }
  ({ Client := client
     Registry := registry
     Workers := workers
     workerReplicas := config.WorkerReplicas }, h)

/-- Go: `func NewRelayHTTP(logger, config, client)`. The struct literal with
`make([]*Worker, config.WorkerReplicas*3)` is evaluated first, the product
in `int` arithmetic; a panic of `make` ends the call before any `Register`.
The error result is always nil and is left out. -/
def NewRelayHTTP (src : EventSources) (maxLen : Nat) (h : Heap Msg) (config : RelayConfig)
    (client : Client) : Run (RelayHTTP Client × Heap Msg) :=
  let config := applyConfigDefaults config
  match makeWorkers maxLen (wrapInt (config.WorkerReplicas * 3)) with
  | .panic reason => .panic reason
  | .ok workers => .ok (registerRecords src h config client workers)

/-! ## Worker pool -/

/-- The slice assignment `workers[i] = w`; `none` is the index out of range
panic. -/
def setWorker (workers : List (Option (Worker Client))) (i : Nat) (w : Worker Client) :
    Option (List (Option (Worker Client))) :=
  if i < workers.length then some (workers.set i (some w)) else none

/-- The inner loop of `InitWorkers` for one record:
`for i := 0; i < replicas; i++ { id := i + 1; r.Workers[count] = NewWorker(..) }`. -/
def initRecordWorkers (rr : EventRelayRecord) (replicas : Int) (client : Client) (count : Nat)
    (workers : List (Option (Worker Client))) : Option (List (Option (Worker Client))) :=
  (List.range replicas.toNat).foldlM
    (fun ws (i : Nat) =>
      setWorker ws count
        (NewWorker (rr.RequestQueue.Name ++ strconv.Itoa ((i : Int) + 1)) rr.RequestQueue client))
    workers

/-- The outer loop of `InitWorkers` over the records in the order `order`,
starting at slot `count`; `count++` comes after the inner loop. -/
def initWorkersFrom (replicas : Int) (client : Client) :
    List (String × EventRelayRecord) → Nat → List (Option (Worker Client)) →
      Option (List (Option (Worker Client)))
  | [], _, workers => some workers
  | (_, record) :: rest, count, workers =>
    match initRecordWorkers record replicas client count workers with
    | none => none
    | some workers => initWorkersFrom replicas client rest (count + 1) workers

/-- Go: `func (r *RelayHTTP) InitWorkers(ctx, replicas, client)`. `order` is
the order in which `range r.Registry.Records` visits the map, a permutation of
its entries. `none` is a panic. -/
def InitWorkers (r : RelayHTTP Client) (order : List (String × EventRelayRecord))
    (replicas : Int) (client : Client) : Option (RelayHTTP Client) :=
  match initWorkersFrom replicas client order 0 r.Workers with
  | none => none
  | some workers => some { r with Workers := workers }

/-- The workers of a pool that consume the channel `queue`. -/
def workersOn (workers : List (Option (Worker Client))) (queue : ChanRef) :
    List (Worker Client) :=
  workers.filterMap (fun slot =>
    match slot with
    | some w => if w.queue.Queue = queue then some w else none
    | none => none)

/-! ## Payload stream -/

/-- A byte. -/
abbrev Byte := UInt8

/-- Go: `json.Marshal(p)` for `p *Payload`. The struct has the one exported
field `Body` without tag, so the encoding is the object with the member
`"Body"`: `null` for the nil pointer, otherwise the encoding of the envelope,
which the events library decides (`encEnvelope`). The bytes 123 and 125 are
the braces. -/
def json.Marshal (encEnvelope : Envelope Msg → Except String (List Byte)) (p : Payload Msg) :
    Except String (List Byte) :=
  match p.Body with
  | none => .ok ([123, 34, 66, 111, 100, 121, 34, 58] ++ [110, 117, 108, 108] ++ [125])
  | some envelope =>
    match encEnvelope envelope with
    | .error msg => .error msg
    | .ok j => .ok ([123, 34, 66, 111, 100, 121, 34, 58] ++ j ++ [125])

/-- Go: the builtin `copy(dst, src)`: the new content of `dst` and the number
of bytes copied. -/
def copy (dst src : List Byte) : List Byte × Nat :=
  let count := min dst.length src.length
  (src.take count ++ dst.drop count, count)

/-- Go: `func (p *Payload) Read(b []byte) (n int, err error)`. The result is
the content of `b` after the call, `n` and `err`. -/
def Payload.Read (encEnvelope : Envelope Msg → Except String (List Byte)) (p : Payload Msg)
    (b : List Byte) : List Byte × Nat × Option GoError :=
  match json.Marshal encEnvelope p with
  | .error msg => (b, 0, some (.wrap .ErrUnexpectedEOF msg))
  | .ok j =>
    let (b, count) := copy b j
    (b, count, some .EOF)

/-- A consumer of an `io.Reader`: calls `read` with a buffer of `size` bytes,
keeps the first `n` bytes of the buffer after each call, then looks at the
error: `io.EOF` ends the stream, another error fails, nil reads on. `none`
when `fuel` calls were not enough. -/
def readToEOF (read : List Byte → List Byte × Nat × Option GoError) (size : Nat) :
    Nat → List Byte → Option (Except GoError (List Byte))
  | 0, _ => none
  | fuel + 1, acc =>
    match read (List.replicate size 0) with
    | (b, n, err) =>
      let acc := acc ++ b.take n
      match err with
      | none => readToEOF read size fuel acc
      | some .EOF => some (.ok acc)
      | some e => some (.error e)

/-! ## Concrete inputs -/

namespace Example

/-- A configuration with two destinations for add events and two replicas. -/
def config : RelayConfig :=
  { OnAddUrl := "http://a,http://b"
    OnUpdateUrl := "http://u"
    OnDeleteUrl := "http://d"
    WorkerReplicas := 2 }

/-- A largest slice length: `2^45` pointers, the `2^48` bytes that the Go
runtime addresses on 64 bit Linux. -/
def maxLen : Nat := 2 ^ 45

/-- A configuration whose replica count times three is `2^64 + 2`. -/
def configWrapsToTwo : RelayConfig :=
  { config with WorkerReplicas := 6148914691236517206 }

/-- A configuration whose replica count times three is `2^63 + 1`. -/
def configWrapsNegative : RelayConfig :=
  { config with WorkerReplicas := 3074457345618258603 }

/-- The relay built from `config` in the empty store, with the store after
the construction. -/
def built : RelayHTTP Unit × Heap String :=
  match NewRelayHTTP EventSources.library maxLen [] config () with
  | .ok result => result
  | .panic _ =>
    ({ Client := (), Registry := { Records := [] }, Workers := [], workerReplicas := 0 }, [])

/-- The header of an add event. -/
def header : Header :=
  { Headers := [("event_source", "OnAdd"), ("event_type", "gameserver.events.added")] }

/-- An envelope for an add event. -/
def envelope : Envelope String :=
  { Header := some header, Message := "gs-1" }

/-- A header without the routing entry. -/
def headerNoSource : Header :=
  { Headers := [("event_type", "gameserver.events.added")] }

/-- An envelope without the routing entry in its header. -/
def envelopeNoSource : Envelope String :=
  { Header := some headerNoSource, Message := "gs-1" }

/-- An envelope to which no header was added: `&events.Envelope{}` with a
message. -/
def envelopeNoHeader : Envelope String :=
  { Header := none, Message := "gs-1" }

/-- A header whose event source no record is registered for. -/
def headerUnknown : Header :=
  { Headers := [("event_source", "OnError")] }

/-- An envelope whose event source no record is registered for. -/
def envelopeUnknown : Envelope String :=
  { Header := some headerUnknown, Message := "gs-1" }

/-- A first record for a kind, on channel 0. -/
def recordFirst : EventRelayRecord :=
  { Method := "POST", URL := ["http://a"], RequestQueue := { Name := "First", Queue := 0 } }

/-- A second record for the same kind, on channel 1. -/
def recordSecond : EventRelayRecord :=
  { Method := "PUT", URL := ["http://b"], RequestQueue := { Name := "Second", Queue := 1 } }

/-- A record that shares channel 0 with `recordFirst`. -/
def recordShared : EventRelayRecord :=
  { Method := "PUT", URL := ["http://b"], RequestQueue := { Name := "Second", Queue := 0 } }

/-- A registry in which `OnAdd` was registered with `recordFirst` and then
with `recordShared`. -/
def registryShared : EventRelayRegistry :=
  (({ Records := [] } : EventRelayRegistry).Register "OnAdd" recordFirst).Register
    "OnAdd" recordShared

/-- A relay over `registryShared`. -/
def relayShared : RelayHTTP Unit :=
  { Client := (), Registry := registryShared, Workers := [], workerReplicas := 1 }

/-- A registry in which the kind `OnAdd` was registered twice. -/
def registryTwice : EventRelayRegistry :=
  (({ Records := [] } : EventRelayRegistry).Register "OnAdd" recordFirst).Register
    "OnAdd" recordSecond

/-- A relay over `registryTwice`. -/
def relayTwice : RelayHTTP Unit :=
  { Client := (), Registry := registryTwice, Workers := [], workerReplicas := 1 }

/-- A request accepted earlier. -/
def earlier : RelayRequest String :=
  { Method := "PUT", Endpoints := ["http://b"], Payload := { Body := some envelope } }

/-- A store with two channels of capacity one: channel 0 empty, channel 1
full. -/
def heapSecondFull : Heap String :=
  [{ cap := 1, buf := [] }, { cap := 1, buf := [earlier] }]

/-- A store with two empty channels of capacity two. -/
def heapEmpty : Heap String :=
  [{ cap := 2, buf := [] }, { cap := 2, buf := [] }]

/-- A stand-in for the envelope encoder of the events library: the header
member only, with an empty object. -/
def encEnvelope (_ : Envelope String) : Except String (List Byte) :=
  .ok [123, 34, 104, 101, 97, 100, 101, 114, 34, 58, 123, 125, 125]

end Example

end Model

end Broker

/-! # Theorems -/

namespace Broker

/-! ## Go maps -/

theorem GoMap.get_eq_none_iff {V : Type} (m : GoMap V) (k : String) :
    m.get k = none ↔ k ∉ m.keys := by
  induction m with
  | nil => simp [GoMap.get, GoMap.keys]
  | cons e rest ih =>
    obtain ⟨k', v⟩ := e
    by_cases hk : k' = k
    · simp [GoMap.get, GoMap.keys, hk]
    · have hk' : ¬ k = k' := fun h => hk h.symm
      simpa [GoMap.get, GoMap.keys, hk, hk'] using ih

theorem GoMap.get_set_self {V : Type} (m : GoMap V) (k : String) (v : V) :
    (m.set k v).get k = some v := by
  induction m with
  | nil => simp [GoMap.set, GoMap.get]
  | cons e rest ih =>
    obtain ⟨k', v'⟩ := e
    by_cases hk : k' = k
    · simp [GoMap.set, GoMap.get, hk]
    · simp [GoMap.set, GoMap.get, hk, ih]

theorem GoMap.get_set_of_ne {V : Type} (m : GoMap V) (k k₂ : String) (v : V) (hne : k₂ ≠ k) :
    (m.set k v).get k₂ = m.get k₂ := by
  induction m with
  | nil =>
    have : ¬ k = k₂ := fun h => hne h.symm
    simp [GoMap.set, GoMap.get, this]
  | cons e rest ih =>
    obtain ⟨k', v'⟩ := e
    by_cases hk : k' = k
    · subst hk
      have : ¬ k' = k₂ := fun h => hne h.symm
      simp [GoMap.set, GoMap.get, this]
    · by_cases hk₂ : k' = k₂
      · subst hk₂
        simp [GoMap.set, GoMap.get, hk]
      · simp [GoMap.set, GoMap.get, hk, hk₂, ih]

theorem GoMap.get_of_mem {V : Type} (m : GoMap V) (k : String) (v : V)
    (hkeys : m.keys.Nodup) (hmem : (k, v) ∈ m) : m.get k = some v := by
  induction m with
  | nil => cases hmem
  | cons e rest ih =>
    obtain ⟨k', v'⟩ := e
    have hnodup : k' ∉ GoMap.keys rest ∧ (GoMap.keys rest).Nodup := by
      simpa [GoMap.keys] using hkeys
    rcases List.mem_cons.1 hmem with heq | hrest
    · cases heq
      simp [GoMap.get]
    · have hk : k ∈ GoMap.keys rest := List.mem_map_of_mem Prod.fst hrest
      have hne : ¬ k' = k := fun e => hnodup.1 (e ▸ hk)
      simp [GoMap.get, hne, ih hnodup.2 hrest]

theorem GoMap.keys_set {V : Type} (m : GoMap V) (k : String) (v : V) :
    (m.set k v).keys = if k ∈ m.keys then m.keys else m.keys ++ [k] := by
  induction m with
  | nil => simp [GoMap.set, GoMap.keys]
  | cons e rest ih =>
    obtain ⟨k', v'⟩ := e
    by_cases hk : k' = k
    · subst hk
      simp [GoMap.set, GoMap.keys]
    · have hk' : ¬ k = k' := fun e => hk e.symm
      have ih' : List.map Prod.fst (GoMap.set rest k v)
          = if k ∈ List.map Prod.fst rest then List.map Prod.fst rest
            else List.map Prod.fst rest ++ [k] := ih
      by_cases hmem : k ∈ List.map Prod.fst rest
      · simp only [GoMap.set, GoMap.keys, hk, if_false, List.map_cons, ih', hmem, if_true,
          List.mem_cons, or_true]
      · simp only [GoMap.set, GoMap.keys, hk, if_false, List.map_cons, ih', hmem,
          List.mem_cons, hk', or_self, List.cons_append]

theorem GoMap.keys_set_nodup {V : Type} (m : GoMap V) (k : String) (v : V)
    (hkeys : m.keys.Nodup) : (m.set k v).keys.Nodup := by
  rw [GoMap.keys_set]
  split
  · exact hkeys
  · rename_i hk
    exact List.Nodup.append hkeys (List.nodup_singleton k) (by simpa using hk)

section Admission

variable {Msg Client : Type}

/-! ## Admission errors -/

/-- C2, as amended: an envelope that has a header whose mapping has no
`event_source` key makes `SendMessage` return the missing-event-source error,
and the store of queues after the call is the store before it (nothing is
enqueued anywhere). An envelope without header makes `SendMessage` panic on
the nil pointer; the store is unchanged there too. -/
theorem SendMessage_missing_event_source (r : RelayHTTP Client) (h : Heap Msg)
    (envelope : Envelope Msg) (drained : Bool) :
    (∀ header : Header, envelope.Header = some header →
        "event_source" ∉ header.Headers.keys →
        (SendMessage r h envelope drained).2
            = .ok (some (GoError.new "envelope header does not contain a valid event_source"))
          ∧ (SendMessage r h envelope drained).1 = h)
      ∧ (envelope.Header = none →
          (SendMessage r h envelope drained).2
              = .panic "invalid memory address or nil pointer dereference"
            ∧ (SendMessage r h envelope drained).1 = h) := by
  constructor
  · intro header hheader hmissing
    have hget : header.Headers.get "event_source" = none :=
      (GoMap.get_eq_none_iff _ _).2 hmissing
    simp [SendMessage, getEventSourceHeader, hheader, hget]
  · intro hheader
    simp [SendMessage, getEventSourceHeader, hheader]

/-- C3: when the `event_source` header names a kind that is no key of the
registry, `SendMessage` returns the not-registered error of `Get`, which
carries the unknown key, wrapped with "aborting sending message", and the
store of queues is unchanged. -/
theorem SendMessage_not_registered (r : RelayHTTP Client) (h : Heap Msg)
    (envelope : Envelope Msg) (drained : Bool) (header : Header) (eventSource : String)
    (hheader : envelope.Header = some header)
    (hsource : header.Headers.get "event_source" = some eventSource)
    (hunknown : eventSource ∉ r.Registry.Records.keys) :
    (SendMessage r h envelope drained).2
        = .ok (some (GoError.wrap
            (GoError.errorfQ "event " eventSource " is not registry, sending aborted")
            "aborting sending message"))
      ∧ (SendMessage r h envelope drained).1 = h := by
  have hget : r.Registry.Records.get eventSource = none :=
    (GoMap.get_eq_none_iff _ _).2 hunknown
  simp [SendMessage, getEventSourceHeader, hheader, hsource, EventRelayRegistry.Get, hget]

theorem EventRelayRegistry.Get_eq_ok_iff (r : EventRelayRegistry) (k : String)
    (record : EventRelayRecord) :
    r.Get k = .ok record ↔ r.Records.get k = some record := by
  unfold EventRelayRegistry.Get
  cases hget : r.Records.get k <;> simp

theorem EventRelayRegistry.Get_of_mem (r : EventRelayRegistry) (k : String)
    (record : EventRelayRecord) (hkeys : r.Records.keys.Nodup)
    (hmem : (k, record) ∈ r.Records) : r.Get k = .ok record :=
  (EventRelayRegistry.Get_eq_ok_iff r k record).2 (GoMap.get_of_mem _ k record hkeys hmem)

theorem EnqueueRequest_of_free (h : Heap Msg) (queue : ChanRef) (c : Chan Msg)
    (request : RelayRequest Msg) (drained : Bool)
    (hqueue : h[queue]? = some c) (hfree : c.buf.length < c.cap) :
    EnqueueRequest h queue request drained
      = (h.set queue { c with buf := c.buf ++ [request] }, none) := by
  simp [EnqueueRequest, hqueue, hfree]

theorem EnqueueRequest_of_drained (h : Heap Msg) (queue : ChanRef) (c : Chan Msg)
    (request : RelayRequest Msg)
    (hqueue : h[queue]? = some c) (hfull : c.cap ≤ c.buf.length) :
    EnqueueRequest h queue request true
      = (h.set queue { c with buf := (c.buf ++ [request]).tail }, none) := by
  have hnot : ¬ c.buf.length < c.cap := by omega
  unfold EnqueueRequest
  simp only [hqueue]
  rw [if_neg hnot]
  simp only [if_true]
  cases hbuf : c.buf with
  | nil =>
    have hself : h.set queue { cap := c.cap, buf := ([] ++ [request]).tail } = h := by
      apply List.ext_getElem?
      intro i
      by_cases hi : i = queue
      · subst hi
        have hlt : i < h.length := by
          by_contra hge
          rw [List.getElem?_eq_none (Nat.le_of_not_lt hge)] at hqueue
          cases hqueue
        rw [List.getElem?_set_self hlt, hqueue]
        cases c
        simp_all
      · have : ¬ queue = i := fun e => hi e.symm
        simp [List.getElem?_set, this]
    rw [hself]
  | cons x rest =>
    simp

theorem EnqueueRequest_other_queue (h : Heap Msg) (queue q : ChanRef)
    (request : RelayRequest Msg) (drained : Bool) (hne : q ≠ queue) :
    (EnqueueRequest h queue request drained).1[q]? = h[q]? := by
  have hq : ¬ queue = q := fun e => hne e.symm
  unfold EnqueueRequest
  split
  · rfl
  · split
    · simp [List.getElem?_set, hq]
    · split
      · split
        · rfl
        · simp [List.getElem?_set, hq]
      · rfl

theorem Heap.getElem?_set_self (h : Heap Msg) (queue : ChanRef) (c c₂ : Chan Msg)
    (hqueue : h[queue]? = some c) : (h.set queue c₂)[queue]? = some c₂ := by
  have hlt : queue < h.length := by
    by_contra hge
    have : h[queue]? = none := List.getElem?_eq_none (Nat.le_of_not_lt hge)
    rw [this] at hqueue
    cases hqueue
  simp [List.getElem?_set, hlt]

theorem Heap.getElem?_set_of_ne (h : Heap Msg) (queue q : ChanRef) (c₂ : Chan Msg)
    (hne : q ≠ queue) : (h.set queue c₂)[q]? = h[q]? := by
  have : ¬ queue = q := fun e => hne e.symm
  simp [List.getElem?_set, this]

theorem SendMessage_of_registered (r : RelayHTTP Client) (h : Heap Msg)
    (envelope : Envelope Msg) (drained : Bool) (header : Header) (eventSource : String)
    (record : EventRelayRecord)
    (hheader : envelope.Header = some header)
    (hheaderKeys : header.Headers.keys.Nodup)
    (hsource : ("event_source", eventSource) ∈ header.Headers)
    (hkeys : r.Registry.Records.keys.Nodup)
    (hrecord : (eventSource, record) ∈ r.Registry.Records) :
    SendMessage r h envelope drained
      = ((EnqueueRequest h record.RequestQueue.Queue
            { Method := record.Method
              Endpoints := record.URL
              Payload := { Body := some envelope } } drained).1,
          .ok (EnqueueRequest h record.RequestQueue.Queue
            { Method := record.Method
              Endpoints := record.URL
              Payload := { Body := some envelope } } drained).2) := by
  have hget := GoMap.get_of_mem _ _ _ hheaderKeys hsource
  have hrec := EventRelayRegistry.Get_of_mem _ _ _ hkeys hrecord
  simp only [SendMessage, getEventSourceHeader, hheader, hget, hrec]
  rfl

/-! ## Admission of a message -/

/-- C6: when the header of the envelope has the entry `event_source` with a
kind that is a key of the registry, and the queue of the record stored under
that key has a free slot, `SendMessage` returns nil and that queue holds
afterwards what it held before followed by one request; the request has the
method of the record, the URL list of the record as its endpoints and a
payload whose body is the envelope passed in; every other queue of the store
is as before. The header mapping and the registry are Go maps: no key twice. -/
theorem SendMessage_enqueues_one_request (r : RelayHTTP Client) (h : Heap Msg)
    (envelope : Envelope Msg) (drained : Bool) (header : Header) (eventSource : String)
    (record : EventRelayRecord) (c : Chan Msg)
    (hheader : envelope.Header = some header)
    (hheaderKeys : header.Headers.keys.Nodup)
    (hsource : ("event_source", eventSource) ∈ header.Headers)
    (hkeys : r.Registry.Records.keys.Nodup)
    (hrecord : (eventSource, record) ∈ r.Registry.Records)
    (hqueue : h[record.RequestQueue.Queue]? = some c)
    (hfree : c.buf.length < c.cap) :
    (SendMessage r h envelope drained).2 = .ok none
      ∧ (SendMessage r h envelope drained).1[record.RequestQueue.Queue]?
          = some { cap := c.cap
                   buf := c.buf ++ [{ Method := record.Method
                                      Endpoints := record.URL
                                      Payload := { Body := some envelope } }] }
      ∧ ∀ q : ChanRef, q ≠ record.RequestQueue.Queue →
          (SendMessage r h envelope drained).1[q]? = h[q]? := by
  rw [SendMessage_of_registered r h envelope drained header eventSource record hheader
    hheaderKeys hsource hkeys hrecord]
  rw [EnqueueRequest_of_free h _ c _ drained hqueue hfree]
  refine ⟨rfl, ?_, ?_⟩
  · exact Heap.getElem?_set_self h _ c _ hqueue
  · intro q hq
    exact Heap.getElem?_set_of_ne h _ q _ hq

/-! ## Backpressure -/

/-- C7: on a queue that holds as many requests as its capacity and from which
no consumer receives within the timeout window, `EnqueueRequest` returns the
timeout error and the store is unchanged: the request is dropped and the queue
holds the same requests in the same order. -/
theorem EnqueueRequest_full_times_out (h : Heap Msg) (queue : ChanRef) (c : Chan Msg)
    (request : RelayRequest Msg)
    (hqueue : h[queue]? = some c) (hfull : c.buf.length = c.cap) :
    EnqueueRequest h queue request false
      = (h, some (GoError.new "request could not be enqueued due to timeout")) := by
  simp [EnqueueRequest, hqueue, hfull]

theorem enqueueAll_of_room (queue : ChanRef) (sends : List (RelayRequest Msg × Bool)) :
    ∀ (h : Heap Msg) (c : Chan Msg), h[queue]? = some c →
      c.buf.length + sends.length ≤ c.cap →
      enqueueAll h queue sends
        = (h.set queue { c with buf := c.buf ++ sends.map Prod.fst },
            List.replicate sends.length none) := by
  induction sends with
  | nil =>
    intro h c hqueue _
    have : h.set queue c = h := by
      apply List.ext_getElem?
      intro i
      by_cases hi : i = queue
      · subst hi
        rw [Heap.getElem?_set_self h i c c hqueue, hqueue]
      · exact Heap.getElem?_set_of_ne h queue i c hi
    simp [enqueueAll, this]
  | cons s rest ih =>
    intro h c hqueue hroom
    obtain ⟨request, drained⟩ := s
    have hfree : c.buf.length < c.cap := by
      simp only [List.length_cons] at hroom
      omega
    have hnext : (h.set queue { c with buf := c.buf ++ [request] })[queue]?
        = some { c with buf := c.buf ++ [request] } :=
      Heap.getElem?_set_self h queue c _ hqueue
    have hroom' : ({ c with buf := c.buf ++ [request] } : Chan Msg).buf.length + rest.length
        ≤ ({ c with buf := c.buf ++ [request] } : Chan Msg).cap := by
      simp only [List.length_cons, List.length_append, List.length_nil] at hroom ⊢
      omega
    simp only [enqueueAll, EnqueueRequest_of_free h queue c request drained hqueue hfree,
      ih _ _ hnext hroom']
    simp [List.set_set, List.replicate_succ]

theorem recvN_of_buffered (queue : ChanRef) (xs : List (RelayRequest Msg)) :
    ∀ (h : Heap Msg) (c : Chan Msg) (rest : List (RelayRequest Msg)), h[queue]? = some c →
      c.buf = xs ++ rest →
      recvN h queue xs.length = some (xs, h.set queue { c with buf := rest }) := by
  induction xs with
  | nil =>
    intro h c rest hqueue hbuf
    have hc : ({ c with buf := rest } : Chan Msg) = c := by
      cases c
      simp_all
    have : h.set queue c = h := by
      apply List.ext_getElem?
      intro i
      by_cases hi : i = queue
      · subst hi
        rw [Heap.getElem?_set_self h i c c hqueue, hqueue]
      · exact Heap.getElem?_set_of_ne h queue i c hi
    simp [recvN, hc, this]
  | cons x xs ih =>
    intro h c rest hqueue hbuf
    have hrecv : Heap.recv h queue = some (x, h.set queue { c with buf := xs ++ rest }) := by
      simp [Heap.recv, hqueue, hbuf]
    have hnext : (h.set queue { c with buf := xs ++ rest })[queue]?
        = some { c with buf := xs ++ rest } :=
      Heap.getElem?_set_self h queue c _ hqueue
    simp only [List.length_cons, recvN, hrecv, ih _ _ rest hnext rfl]
    simp [List.set_set]

/-- C8: on a queue with a free slot `EnqueueRequest` returns nil, whatever the
consumers do, and the queue then holds its former requests followed by the new
one. Hence a producer that enqueues `N` requests, `N` at most the capacity, on
an empty queue gets nil from every call, and `N` receives then return the
requests in the order of the calls. -/
theorem EnqueueRequest_fifo :
    (∀ (h : Heap Msg) (queue : ChanRef) (c : Chan Msg) (request : RelayRequest Msg)
        (drained : Bool), h[queue]? = some c → c.buf.length < c.cap →
        (EnqueueRequest h queue request drained).2 = none
          ∧ (EnqueueRequest h queue request drained).1[queue]?
              = some { cap := c.cap, buf := c.buf ++ [request] })
    ∧ (∀ (h : Heap Msg) (queue : ChanRef) (cap : Nat) (sends : List (RelayRequest Msg × Bool)),
        h[queue]? = some { cap := cap, buf := [] } → sends.length ≤ cap →
        (enqueueAll h queue sends).2 = List.replicate sends.length none
          ∧ ∃ h₂, recvN (enqueueAll h queue sends).1 queue sends.length
              = some (sends.map Prod.fst, h₂)) := by
  constructor
  · intro h queue c request drained hqueue hfree
    rw [EnqueueRequest_of_free h queue c request drained hqueue hfree]
    exact ⟨rfl, Heap.getElem?_set_self h queue c _ hqueue⟩
  · intro h queue cap sends hqueue hlen
    have hall := enqueueAll_of_room queue sends h { cap := cap, buf := [] } hqueue
      (by simpa using hlen)
    rw [hall]
    refine ⟨rfl, ?_⟩
    have hnext := Heap.getElem?_set_self h queue _
      ({ cap := cap, buf := [] ++ sends.map Prod.fst } : Chan Msg) hqueue
    have hrecv := recvN_of_buffered queue (sends.map Prod.fst) _ _ [] hnext (by simp)
    rw [List.length_map] at hrecv
    exact ⟨_, hrecv⟩

/-! ## Registering a kind twice -/

theorem EventRelayRegistry.Get_Register_self (registry : EventRelayRegistry) (k : String)
    (record : EventRelayRecord) : (registry.Register k record).Get k = .ok record := by
  rw [EventRelayRegistry.Get_eq_ok_iff]
  exact GoMap.get_set_self _ k record

theorem SendMessage_of_Get (r : RelayHTTP Client) (h : Heap Msg)
    (envelope : Envelope Msg) (drained : Bool) (header : Header) (eventSource : String)
    (record : EventRelayRecord)
    (hheader : envelope.Header = some header)
    (hheaderKeys : header.Headers.keys.Nodup)
    (hsource : ("event_source", eventSource) ∈ header.Headers)
    (hrecord : r.Registry.Get eventSource = .ok record) :
    SendMessage r h envelope drained
      = ((EnqueueRequest h record.RequestQueue.Queue
            { Method := record.Method
              Endpoints := record.URL
              Payload := { Body := some envelope } } drained).1,
          .ok (EnqueueRequest h record.RequestQueue.Queue
            { Method := record.Method
              Endpoints := record.URL
              Payload := { Body := some envelope } } drained).2) := by
  have hget := GoMap.get_of_mem _ _ _ hheaderKeys hsource
  simp only [SendMessage, getEventSourceHeader, hheader, hget, hrecord]
  rfl

/-- C5, as amended: after `Register(X, r1)` and then `Register(X, r2)`,
`Get(X)` returns `r2`, and not `r1` when the two differ. A `SendMessage` for
an envelope with `event_source` `X` leaves every queue other than that of
`r2` as it was, so the queue of `r1` when that is another channel. When the
queue of `r2` has a free slot it returns nil and the queue holds its former
requests followed by one request with the method and the URL list of `r2` and
the envelope as payload body. When the queue of `r2` is full and a consumer
receives from it within the timeout window it returns nil as well, the
consumer has taken the oldest of the former requests followed by the new one,
and the queue holds the others. -/
theorem Register_twice_routes_to_second (r : RelayHTTP Client)
    (registry : EventRelayRegistry) (X : String) (r1 r2 : EventRelayRecord) (h : Heap Msg)
    (envelope : Envelope Msg) (drained : Bool) (header : Header)
    (hheader : envelope.Header = some header)
    (hheaderKeys : header.Headers.keys.Nodup)
    (hsource : ("event_source", X) ∈ header.Headers) :
    ((registry.Register X r1).Register X r2).Get X = .ok r2
      ∧ (r1 ≠ r2 → ((registry.Register X r1).Register X r2).Get X ≠ .ok r1)
      ∧ (∀ q : ChanRef, q ≠ r2.RequestQueue.Queue →
          (SendMessage { r with Registry := (registry.Register X r1).Register X r2 }
            h envelope drained).1[q]? = h[q]?)
      ∧ (r1.RequestQueue.Queue ≠ r2.RequestQueue.Queue →
          (SendMessage { r with Registry := (registry.Register X r1).Register X r2 }
            h envelope drained).1[r1.RequestQueue.Queue]? = h[r1.RequestQueue.Queue]?)
      ∧ (∀ c : Chan Msg, h[r2.RequestQueue.Queue]? = some c → c.buf.length < c.cap →
          (SendMessage { r with Registry := (registry.Register X r1).Register X r2 }
              h envelope drained).2 = .ok none
            ∧ (SendMessage { r with Registry := (registry.Register X r1).Register X r2 }
                h envelope drained).1[r2.RequestQueue.Queue]?
              = some { cap := c.cap
                       buf := c.buf ++ [{ Method := r2.Method
                                          Endpoints := r2.URL
                                          Payload := { Body := some envelope } }] })
      ∧ (∀ c : Chan Msg, h[r2.RequestQueue.Queue]? = some c → c.cap ≤ c.buf.length →
          drained = true →
          (SendMessage { r with Registry := (registry.Register X r1).Register X r2 }
              h envelope drained).2 = .ok none
            ∧ (SendMessage { r with Registry := (registry.Register X r1).Register X r2 }
                h envelope drained).1[r2.RequestQueue.Queue]?
              = some { cap := c.cap
                       buf := (c.buf ++ [({ Method := r2.Method
                                            Endpoints := r2.URL
                                            Payload := { Body := some envelope } } :
                                          RelayRequest Msg)]).tail }) := by
  have hget := EventRelayRegistry.Get_Register_self (registry.Register X r1) X r2
  have hsend := SendMessage_of_Get
    ({ r with Registry := (registry.Register X r1).Register X r2 } : RelayHTTP Client)
    h envelope drained header X r2 hheader hheaderKeys hsource hget
  refine ⟨hget, ?_, ?_, ?_, ?_, ?_⟩
  · intro hne hr1
    rw [hget] at hr1
    exact hne (Except.ok.inj hr1).symm
  · intro q hq
    rw [hsend]
    exact EnqueueRequest_other_queue h _ q _ drained hq
  · intro hq
    rw [hsend]
    exact EnqueueRequest_other_queue h _ _ _ drained hq
  · intro c hqueue hfree
    rw [hsend, EnqueueRequest_of_free h _ c _ drained hqueue hfree]
    exact ⟨rfl, Heap.getElem?_set_self h _ c _ hqueue⟩
  · intro c hqueue hfull hdrained
    subst hdrained
    rw [hsend, EnqueueRequest_of_drained h _ c _ hqueue hfull]
    exact ⟨rfl, Heap.getElem?_set_self h _ c _ hqueue⟩

end Admission

/-! ## Splitting the destination list -/

theorem strings.splitChars_ne_nil (sep : Char) (l : List Char) : strings.splitChars sep l ≠ [] := by
  cases l with
  | nil => simp [strings.splitChars]
  | cons c cs =>
    unfold strings.splitChars
    split
    · simp
    · split <;> simp

theorem strings.splitChars_length (sep : Char) (l : List Char) :
    (strings.splitChars sep l).length = l.count sep + 1 := by
  induction l with
  | nil => simp [strings.splitChars]
  | cons c cs ih =>
    unfold strings.splitChars
    by_cases hc : c = sep
    · subst hc
      simp [ih]
    · have hne := strings.splitChars_ne_nil sep cs
      cases hrec : strings.splitChars sep cs with
      | nil => exact absurd hrec hne
      | cons piece pieces =>
        rw [hrec] at ih
        simp only [hc, if_false]
        rw [List.count_cons_of_ne (fun h => hc h.symm)]
        simpa using ih

theorem strings.splitChars_no_sep (sep : Char) (l : List Char) :
    ∀ piece ∈ strings.splitChars sep l, sep ∉ piece := by
  induction l with
  | nil => simp [strings.splitChars]
  | cons c cs ih =>
    unfold strings.splitChars
    by_cases hc : c = sep
    · subst hc
      intro piece hpiece
      simp only [if_true, List.mem_cons] at hpiece
      rcases hpiece with rfl | hpiece
      · simp
      · exact ih piece hpiece
    · have hne := strings.splitChars_ne_nil sep cs
      cases hrec : strings.splitChars sep cs with
      | nil => exact absurd hrec hne
      | cons first pieces =>
        rw [hrec] at ih
        simp only [hc, if_false]
        intro piece hpiece
        simp only [List.mem_cons] at hpiece
        rcases hpiece with rfl | hpiece
        · have := ih first (by simp)
          simp only [List.mem_cons, not_or]
          exact ⟨fun h => hc h.symm, this⟩
        · exact ih piece (by simp [hpiece])

theorem strings.splitChars_intercalate (sep : Char) (l : List Char) :
    List.intercalate [sep] (strings.splitChars sep l) = l := by
  induction l with
  | nil => simp [strings.splitChars, List.intercalate]
  | cons c cs ih =>
    unfold strings.splitChars
    have hne := strings.splitChars_ne_nil sep cs
    cases hrec : strings.splitChars sep cs with
    | nil => exact absurd hrec hne
    | cons first pieces =>
      rw [hrec] at ih
      by_cases hc : c = sep
      · subst hc
        simp only [if_true]
        simp only [List.intercalate, List.intersperse] at ih ⊢
        simp [ih]
      · simp only [hc, if_false]
        cases pieces with
        | nil =>
          simp only [List.intercalate, List.intersperse] at ih ⊢
          simpa using ih
        | cons second others =>
          simp only [List.intercalate, List.intersperse] at ih ⊢
          simpa using ih

section Construction

variable {Msg Client : Type}

/-! ## Construction of the relay -/

theorem applyConfigDefaults_WorkerReplicas (config : RelayConfig) :
    (applyConfigDefaults config).WorkerReplicas
      = if 0 < config.WorkerReplicas then config.WorkerReplicas else 1 := by
  unfold applyConfigDefaults
  by_cases hpos : 0 < config.WorkerReplicas
  · have : ¬ config.WorkerReplicas ≤ 0 := by omega
    simp [hpos, this]
  · have : config.WorkerReplicas ≤ 0 := by omega
    simp [hpos, this]

theorem applyConfigDefaults_urls (config : RelayConfig) :
    (applyConfigDefaults config).OnAddUrl = config.OnAddUrl
      ∧ (applyConfigDefaults config).OnUpdateUrl = config.OnUpdateUrl
      ∧ (applyConfigDefaults config).OnDeleteUrl = config.OnDeleteUrl := by
  unfold applyConfigDefaults
  split <;> simp

theorem applyConfigDefaults_pos (config : RelayConfig) :
    1 ≤ (applyConfigDefaults config).WorkerReplicas := by
  rw [applyConfigDefaults_WorkerReplicas]
  split <;> omega

theorem wrapInt_of_fits (x : Int) (hnonneg : 0 ≤ x) (hfit : x < 2 ^ 63) : wrapInt x = x := by
  unfold wrapInt
  omega

theorem registerRecords_eq (src : EventSources) (h : Heap Msg) (config : RelayConfig)
    (client : Client) (workers : List (Option (Worker Client))) (hsrc : src.Distinct) :
    registerRecords src h config client workers
      = ({ Client := client
           Registry :=
            { Records :=
                [(src.OnAdd,
                    { Method := "POST"
                      URL := strings.Split config.OnAddUrl ','
                      RequestQueue := { Name := "OnAdd", Queue := h.length } }),
                 (src.OnUpdate,
                    { Method := "PUT"
                      URL := strings.Split config.OnUpdateUrl ','
                      RequestQueue := { Name := "OnUpdate", Queue := h.length + 1 } }),
                 (src.OnDelete,
                    { Method := "DELETE"
                      URL := strings.Split config.OnDeleteUrl ','
                      RequestQueue := { Name := "OnDelete", Queue := h.length + 2 } })] }
           Workers := workers
           workerReplicas := config.WorkerReplicas },
         h ++ [{ cap := 1024, buf := [] }, { cap := 1024, buf := [] },
               { cap := 1024, buf := [] }]) := by
  obtain ⟨h₁, h₂, h₃⟩ := hsrc
  simp [registerRecords, Heap.make, EventRelayRegistry.Register, GoMap.set, h₁, h₂, h₃,
    http.MethodPost, http.MethodPut, http.MethodDelete, Nat.add_assoc]

theorem NewRelayHTTP_eq_ok_iff (src : EventSources) (maxLen : Nat) (h : Heap Msg)
    (config : RelayConfig) (client : Client) (result : RelayHTTP Client × Heap Msg) :
    NewRelayHTTP src maxLen h config client = .ok result
      ↔ (0 ≤ wrapInt ((applyConfigDefaults config).WorkerReplicas * 3)
          ∧ wrapInt ((applyConfigDefaults config).WorkerReplicas * 3) ≤ (maxLen : Int))
        ∧ result = registerRecords src h (applyConfigDefaults config) client
            (List.replicate (wrapInt ((applyConfigDefaults config).WorkerReplicas * 3)).toNat
              none) := by
  unfold NewRelayHTTP makeWorkers
  by_cases hlen : wrapInt ((applyConfigDefaults config).WorkerReplicas * 3) < 0
      ∨ (maxLen : Int) < wrapInt ((applyConfigDefaults config).WorkerReplicas * 3)
  · simp only [hlen, if_true]
    constructor
    · intro hcontra
      cases hcontra
    · rintro ⟨⟨h0, h1⟩, _⟩
      omega
  · simp only [hlen, if_false]
    constructor
    · intro hok
      refine ⟨by omega, ?_⟩
      exact (Run.ok.inj hok).symm
    · rintro ⟨_, hres⟩
      rw [hres]

/-- C9, as amended: `NewRelayHTTP` returns exactly when `WorkerReplicas * 3`,
after the defaults and in `int` arithmetic, is a length `make` allocates (not
negative, not above the largest length), so whenever the exact product is below
`2^63` and at most the largest length. Whenever it returns, the registry has
exactly three records, under the add, update and delete kinds; their methods
are POST, PUT and DELETE; the three queues are different channels, each of
capacity 1024 and empty; and the URL list of each record is `strings.Split` of
the matching destination string at the comma. The split has one piece more
than the string has commas, no piece holds a comma, and the pieces joined by
commas give the string back, so the pieces are the string cut at every comma,
in order; `"http://a,http://b"` gives `["http://a", "http://b"]`. -/
theorem NewRelayHTTP_registry (src : EventSources) (maxLen : Nat) (h : Heap Msg)
    (config : RelayConfig) (client : Client) (hsrc : src.Distinct) :
    ((∃ result, NewRelayHTTP src maxLen h config client = .ok result)
        ↔ 0 ≤ wrapInt ((applyConfigDefaults config).WorkerReplicas * 3)
          ∧ wrapInt ((applyConfigDefaults config).WorkerReplicas * 3) ≤ (maxLen : Int))
      ∧ ((applyConfigDefaults config).WorkerReplicas * 3 < 2 ^ 63 →
          (applyConfigDefaults config).WorkerReplicas * 3 ≤ (maxLen : Int) →
          ∃ result, NewRelayHTTP src maxLen h config client = .ok result)
      ∧ (∀ (relay : RelayHTTP Client) (heap : Heap Msg),
          NewRelayHTTP src maxLen h config client = .ok (relay, heap) →
          relay.Registry.Records.keys = [src.OnAdd, src.OnUpdate, src.OnDelete]
            ∧ relay.Registry.Get src.OnAdd
                = .ok { Method := "POST"
                        URL := strings.Split config.OnAddUrl ','
                        RequestQueue := { Name := "OnAdd", Queue := h.length } }
            ∧ relay.Registry.Get src.OnUpdate
                = .ok { Method := "PUT"
                        URL := strings.Split config.OnUpdateUrl ','
                        RequestQueue := { Name := "OnUpdate", Queue := h.length + 1 } }
            ∧ relay.Registry.Get src.OnDelete
                = .ok { Method := "DELETE"
                        URL := strings.Split config.OnDeleteUrl ','
                        RequestQueue := { Name := "OnDelete", Queue := h.length + 2 } }
            ∧ (relay.Registry.Records.map (fun entry => entry.2.RequestQueue.Queue)).Nodup
            ∧ (∀ entry ∈ relay.Registry.Records,
                heap[entry.2.RequestQueue.Queue]? = some { cap := 1024, buf := [] }))
      ∧ (∀ s : String,
          (strings.Split s ',').length = s.toList.count ',' + 1
            ∧ (∀ url ∈ strings.Split s ',', ',' ∉ url.toList)
            ∧ List.intercalate [','] ((strings.Split s ',').map String.toList) = s.toList)
      ∧ strings.Split "http://a,http://b" ',' = ["http://a", "http://b"] := by
  have hpos := applyConfigDefaults_pos config
  refine ⟨?_, ?_, ?_, ?_, by decide⟩
  · constructor
    · rintro ⟨result, hres⟩
      exact ((NewRelayHTTP_eq_ok_iff src maxLen h config client result).1 hres).1
    · intro hlen
      exact ⟨_, (NewRelayHTTP_eq_ok_iff src maxLen h config client _).2 ⟨hlen, rfl⟩⟩
  · intro hfit halloc
    have hwrap := wrapInt_of_fits _ (by omega) hfit
    refine ⟨_, (NewRelayHTTP_eq_ok_iff src maxLen h config client _).2 ⟨?_, rfl⟩⟩
    rw [hwrap]
    exact ⟨by omega, halloc⟩
  · intro relay heap hbuilt
    have hres := ((NewRelayHTTP_eq_ok_iff src maxLen h config client _).1 hbuilt).2
    rw [registerRecords_eq src h _ client _ hsrc] at hres
    obtain ⟨u₁, u₂, u₃⟩ := applyConfigDefaults_urls config
    rw [u₁, u₂, u₃] at hres
    obtain ⟨h₁, h₂, h₃⟩ := hsrc
    have h₁' : ¬ src.OnUpdate = src.OnAdd := fun e => h₁ e.symm
    have h₂' : ¬ src.OnDelete = src.OnAdd := fun e => h₂ e.symm
    have h₃' : ¬ src.OnDelete = src.OnUpdate := fun e => h₃ e.symm
    have hrelay := congrArg Prod.fst hres
    have hheap := congrArg Prod.snd hres
    simp only at hrelay hheap
    subst hrelay
    subst hheap
    refine ⟨rfl, ?_, ?_, ?_, ?_, ?_⟩
    · simp [EventRelayRegistry.Get, GoMap.get]
    · simp [EventRelayRegistry.Get, GoMap.get, h₁]
    · simp [EventRelayRegistry.Get, GoMap.get, h₂, h₃]
    · simp
    · intro entry hentry
      simp only [List.mem_cons, List.mem_singleton, List.not_mem_nil, or_false] at hentry
      rcases hentry with rfl | rfl | rfl
      · show (h ++ _)[h.length]? = _
        rw [List.getElem?_append_right (Nat.le_refl _)]
        simp
      · show (h ++ _)[h.length + 1]? = _
        rw [List.getElem?_append_right (Nat.le_add_right _ _)]
        simp
      · show (h ++ _)[h.length + 2]? = _
        rw [List.getElem?_append_right (Nat.le_add_right _ _)]
        simp
  · intro s
    have hmap : (strings.Split s ',').map String.toList = strings.splitChars ',' s.toList := by
      unfold strings.Split
      rw [List.map_map]
      exact List.map_id _
    refine ⟨?_, ?_, ?_⟩
    · rw [← strings.splitChars_length, ← hmap, List.length_map]
    · intro url hurl
      apply strings.splitChars_no_sep ',' s.toList
      rw [← hmap]
      exact List.mem_map_of_mem _ hurl
    · rw [hmap]
      exact strings.splitChars_intercalate ',' s.toList

/-- C10, as amended: `applyConfigDefaults` sets `WorkerReplicas` to the
configured value when that is positive and to 1 otherwise, and leaves the
three destination fields as they are. Whenever `NewRelayHTTP` returns, the
relay has that replica count `r`, and its worker pool has as many slots as
`r * 3` gives in `int` arithmetic, which is `r * 3` when `r * 3` is below
`2^63`. `NewRelayHTTP` returns whenever `r * 3` is below `2^63` and at most
the largest length `make` allocates. -/
theorem NewRelayHTTP_replicas (src : EventSources) (maxLen : Nat) (h : Heap Msg)
    (config : RelayConfig) (client : Client) :
    ((applyConfigDefaults config).WorkerReplicas
          = (if 0 < config.WorkerReplicas then config.WorkerReplicas else 1)
        ∧ (applyConfigDefaults config).OnAddUrl = config.OnAddUrl
        ∧ (applyConfigDefaults config).OnUpdateUrl = config.OnUpdateUrl
        ∧ (applyConfigDefaults config).OnDeleteUrl = config.OnDeleteUrl)
      ∧ (∀ (relay : RelayHTTP Client) (heap : Heap Msg),
          NewRelayHTTP src maxLen h config client = .ok (relay, heap) →
          relay.workerReplicas
              = (if 0 < config.WorkerReplicas then config.WorkerReplicas else 1)
            ∧ (relay.Workers.length : Int) = wrapInt (relay.workerReplicas * 3)
            ∧ (relay.workerReplicas * 3 < 2 ^ 63 →
                (relay.Workers.length : Int) = relay.workerReplicas * 3))
      ∧ ((if 0 < config.WorkerReplicas then config.WorkerReplicas else 1) * 3 < 2 ^ 63 →
          (if 0 < config.WorkerReplicas then config.WorkerReplicas else 1) * 3
            ≤ (maxLen : Int) →
          ∃ (relay : RelayHTTP Client) (heap : Heap Msg),
            NewRelayHTTP src maxLen h config client = .ok (relay, heap)) := by
  have hpos := applyConfigDefaults_pos config
  have hurls := applyConfigDefaults_urls config
  have hrep := applyConfigDefaults_WorkerReplicas config
  refine ⟨⟨hrep, hurls.1, hurls.2.1, hurls.2.2⟩, ?_, ?_⟩
  · intro relay heap hbuilt
    obtain ⟨⟨hnonneg, _⟩, hres⟩ :=
      (NewRelayHTTP_eq_ok_iff src maxLen h config client _).1 hbuilt
    have hrelay := congrArg Prod.fst hres
    simp only at hrelay
    have hreplicas : relay.workerReplicas = (applyConfigDefaults config).WorkerReplicas := by
      rw [hrelay]
      simp [registerRecords]
    have hworkers : relay.Workers
        = List.replicate (wrapInt ((applyConfigDefaults config).WorkerReplicas * 3)).toNat
            none := by
      rw [hrelay]
      simp [registerRecords]
    have hlen : (relay.Workers.length : Int) = wrapInt (relay.workerReplicas * 3) := by
      rw [hworkers, hreplicas, List.length_replicate]
      exact Int.toNat_of_nonneg hnonneg
    refine ⟨by rw [hreplicas, hrep], hlen, ?_⟩
    intro hfit
    rw [hlen, wrapInt_of_fits _ (by rw [hreplicas]; omega) hfit]
  · rw [← hrep]
    intro hfit halloc
    have hwrap := wrapInt_of_fits _ (by omega) hfit
    refine ⟨_, _, (NewRelayHTTP_eq_ok_iff src maxLen h config client (_, _)).2 ⟨?_, rfl⟩⟩
    rw [hwrap]
    exact ⟨by omega, halloc⟩

end Construction

section Pool

variable {Msg Client : Type}

/-! ## The worker pool -/

theorem setWorker_of_lt (workers : List (Option (Worker Client))) (i : Nat) (w : Worker Client)
    (hi : i < workers.length) : setWorker workers i w = some (workers.set i (some w)) := by
  simp [setWorker, hi]

theorem initRecordWorkers_succ (rr : EventRelayRecord) (client : Client) (count : Nat)
    (workers : List (Option (Worker Client))) (hcount : count < workers.length) (n : Nat) :
    initRecordWorkers rr ((n : Int) + 1) client count workers
      = some (workers.set count
          (some (NewWorker (rr.RequestQueue.Name ++ strconv.Itoa ((n : Int) + 1))
            rr.RequestQueue client))) := by
  have htoNat : ((n : Int) + 1).toNat = n + 1 := by omega
  unfold initRecordWorkers
  rw [htoNat]
  induction n with
  | zero =>
    simp [List.range_succ, setWorker_of_lt workers count _ hcount]
  | succ n ih =>
    have hn : ((n : Int) + 1).toNat = n + 1 := by omega
    rw [List.range_succ, List.foldlM_append, ih hn]
    have hlen : count < (workers.set count
        (some (NewWorker (rr.RequestQueue.Name ++ strconv.Itoa ((n : Int) + 1))
          rr.RequestQueue client))).length := by
      simpa using hcount
    simp [setWorker_of_lt _ count _ hlen, List.set_set]

theorem initWorkersFrom_fills (n : Nat) (client : Client)
    (order : List (String × EventRelayRecord)) :
    ∀ (filled : List (Option (Worker Client))) (m : Nat), order.length ≤ m →
      initWorkersFrom ((n : Int) + 1) client order filled.length
          (filled ++ List.replicate m none)
        = some (filled
            ++ order.map (fun entry =>
                some (NewWorker (entry.2.RequestQueue.Name ++ strconv.Itoa ((n : Int) + 1))
                  entry.2.RequestQueue client))
            ++ List.replicate (m - order.length) none) := by
  induction order with
  | nil =>
    intro filled m _
    simp [initWorkersFrom]
  | cons entry rest ih =>
    intro filled m hm
    obtain ⟨k, record⟩ := entry
    obtain ⟨m, rfl⟩ : ∃ m₂, m = m₂ + 1 := ⟨m - 1, by simp at hm; omega⟩
    have hcount : filled.length < (filled ++ List.replicate (m + 1) none).length := by
      simp
    have hrest : rest.length ≤ m := by
      simp at hm
      omega
    have hset : (filled ++ List.replicate (m + 1) (none : Option (Worker Client))).set
        filled.length
          (some (NewWorker (record.RequestQueue.Name ++ strconv.Itoa ((n : Int) + 1))
            record.RequestQueue client))
        = (filled ++ [some (NewWorker (record.RequestQueue.Name ++ strconv.Itoa ((n : Int) + 1))
            record.RequestQueue client)]) ++ List.replicate m none := by
      rw [List.set_append_right _ _ (Nat.le_refl _)]
      simp [List.replicate_succ]
    have hlen : filled.length + 1
        = (filled ++ [some (NewWorker (record.RequestQueue.Name ++ strconv.Itoa ((n : Int) + 1))
            record.RequestQueue client)]).length := by
      simp
    simp only [initWorkersFrom, initRecordWorkers_succ record client _ _ hcount n, hset]
    rw [hlen, ih _ m hrest]
    simp

theorem workersOn_append (ws₁ ws₂ : List (Option (Worker Client))) (queue : ChanRef) :
    workersOn (ws₁ ++ ws₂) queue = workersOn ws₁ queue ++ workersOn ws₂ queue := by
  simp [workersOn, List.filterMap_append]

theorem workersOn_replicate_none (m : Nat) (queue : ChanRef) :
    workersOn (List.replicate m (none : Option (Worker Client))) queue = [] := by
  induction m with
  | zero => rfl
  | succ m ih =>
    rw [List.replicate_succ]
    simp only [workersOn, List.filterMap_cons_none] at ih ⊢
    exact ih

theorem workersOn_length_of_perm (ws₁ ws₂ : List (Option (Worker Client))) (queue : ChanRef)
    (hperm : ws₁.Perm ws₂) : (workersOn ws₁ queue).length = (workersOn ws₂ queue).length :=
  (List.Perm.filterMap _ hperm).length_eq

/-- C1, what the code does: for every configuration on which `NewRelayHTTP`
returns a relay with replica count `n`, `n * 3` below `2^63`, and for every
order in which the loop visits the three records, `InitWorkers` with that
replica count fills one slot per record and no more: the pool of `3 * n`
slots holds exactly one worker on the add queue, one on the update queue and
one on the delete queue, each the worker numbered `n`, and `3 * n - 3` slots
stay nil. With `n = 1` that is `n` workers per kind; with `n` two or more it
is not. -/
theorem InitWorkers_one_worker_per_kind (src : EventSources) (maxLen : Nat) (h : Heap Msg)
    (config : RelayConfig) (client : Client) (built : RelayHTTP Client) (heap : Heap Msg)
    (order : List (String × EventRelayRecord))
    (hsrc : src.Distinct)
    (hbuilt : NewRelayHTTP src maxLen h config client = .ok (built, heap))
    (hfit : built.workerReplicas * 3 < 2 ^ 63)
    (horder : order.Perm built.Registry.Records) :
    ∃ relay : RelayHTTP Client,
      InitWorkers built order built.workerReplicas client = some relay
        ∧ relay.Workers
            = order.map (fun entry =>
                some (NewWorker
                  (entry.2.RequestQueue.Name ++ strconv.Itoa relay.workerReplicas)
                  entry.2.RequestQueue client))
              ++ List.replicate (3 * relay.workerReplicas.toNat - 3) none
        ∧ (workersOn relay.Workers h.length).length = 1
        ∧ (workersOn relay.Workers (h.length + 1)).length = 1
        ∧ (workersOn relay.Workers (h.length + 2)).length = 1 := by
  have hres := ((NewRelayHTTP_eq_ok_iff src maxLen h config client _).1 hbuilt).2
  rw [registerRecords_eq src h _ client _ hsrc] at hres
  have hrelay := congrArg Prod.fst hres
  simp only at hrelay
  subst hrelay
  simp only at hfit horder ⊢
  have hpos := applyConfigDefaults_pos config
  obtain ⟨n, hn⟩ : ∃ n : Nat, (applyConfigDefaults config).WorkerReplicas = (n : Int) + 1 :=
    ⟨((applyConfigDefaults config).WorkerReplicas - 1).toNat, by omega⟩
  rw [hn] at hfit
  have hlen : order.length = 3 := by simpa using horder.length_eq
  have hwrap : wrapInt (((n : Int) + 1) * 3) = ((n : Int) + 1) * 3 :=
    wrapInt_of_fits _ (by omega) hfit
  have hslots : (((n : Int) + 1) * 3).toNat = 3 * n + 3 := by omega
  have hinit := initWorkersFrom_fills n client order [] (3 * n + 3) (by omega)
  simp only [List.length_nil, List.nil_append, hlen] at hinit
  have hrest : 3 * ((n : Int) + 1).toNat - 3 = 3 * n + 3 - 3 := by omega
  have hmap := List.Perm.map (fun entry : String × EventRelayRecord =>
    some (NewWorker (entry.2.RequestQueue.Name ++ strconv.Itoa ((n : Int) + 1))
      entry.2.RequestQueue client)) horder
  simp only [InitWorkers, hn, hwrap, hslots, hinit]
  refine ⟨_, rfl, ?_, ?_, ?_, ?_⟩
  · simp only [hrest]
  · rw [workersOn_append, workersOn_replicate_none, List.append_nil,
      workersOn_length_of_perm _ _ _ hmap]
    simp [workersOn, NewWorker]
  · rw [workersOn_append, workersOn_replicate_none, List.append_nil,
      workersOn_length_of_perm _ _ _ hmap]
    simp [workersOn, NewWorker]
  · rw [workersOn_append, workersOn_replicate_none, List.append_nil,
      workersOn_length_of_perm _ _ _ hmap]
    simp [workersOn, NewWorker]

end Pool

section Stream

variable {Msg : Type}

/-! ## The payload as a stream -/

theorem List.take_min_length {α : Type} (l : List α) (n : Nat) :
    l.take (min n l.length) = l.take n := by
  by_cases hn : n ≤ l.length
  · rw [Nat.min_eq_left hn]
  · have hle : l.length ≤ n := by omega
    rw [Nat.min_eq_right hle, List.take_of_length_le hle, List.take_of_length_le (Nat.le_refl _)]

/-- C4, what the code does: when the payload serialises to the bytes `j`, one
call of `Read` with a buffer of `size` bytes copies the first `min size
(len j)` bytes and returns `io.EOF`, so a reader of the stream gets `j` cut to
`size` bytes and the end of the stream; with a buffer shorter than `j` the
delivered bytes are not `j`. -/
theorem Payload_Read_truncates (encEnvelope : Envelope Msg → Except String (List Byte))
    (p : Payload Msg) (j : List Byte) (size fuel : Nat)
    (hj : json.Marshal encEnvelope p = .ok j) :
    (p.Read encEnvelope (List.replicate size 0)).2 = (min size j.length, some GoError.EOF)
      ∧ readToEOF (p.Read encEnvelope) size (fuel + 1) [] = some (.ok (j.take size))
      ∧ (size < j.length → j.take size ≠ j) := by
  have hread : p.Read encEnvelope (List.replicate size 0)
      = (j.take (min size j.length) ++ (List.replicate size 0).drop (min size j.length),
          min size j.length, some GoError.EOF) := by
    simp [Payload.Read, hj, copy]
  refine ⟨by rw [hread], ?_, ?_⟩
  · have htake : (j.take (min size j.length)
        ++ (List.replicate size (0 : Byte)).drop (min size j.length)).take (min size j.length)
        = j.take size := by
      rw [List.take_left' (by simp), List.take_min_length]
    simp only [readToEOF, hread, List.nil_append, htake]
  · intro hlt heq
    have hlen := congrArg List.length heq
    rw [List.length_take] at hlen
    omega

end Stream

/-! ## The theorems at concrete inputs -/

section Concrete

open Example

/-- C2, the claim as stated fails: an envelope to which no header was added has
no `event_source` entry, and `SendMessage` does not return the
missing-event-source error for it: it panics on the nil header pointer. -/
theorem SendMessage_without_header_panics :
    SendMessage built.1 built.2 envelopeNoHeader false
        = (built.2, .panic "invalid memory address or nil pointer dereference")
      ∧ (SendMessage built.1 built.2 envelopeNoHeader false).2
          ≠ .ok (some (GoError.new "envelope header does not contain a valid event_source")) := by
  decide

theorem SendMessage_missing_event_source_witness :
    (SendMessage built.1 built.2 envelopeNoSource false).2
        = .ok (some (GoError.new "envelope header does not contain a valid event_source"))
      ∧ (SendMessage built.1 built.2 envelopeNoSource false).1 = built.2 :=
  (SendMessage_missing_event_source built.1 built.2 envelopeNoSource false).1 headerNoSource
    rfl (by decide)

theorem SendMessage_not_registered_witness :
    (SendMessage built.1 built.2 envelopeUnknown false).2
        = .ok (some (GoError.wrap
            (GoError.errorfQ "event " "OnError" " is not registry, sending aborted")
            "aborting sending message"))
      ∧ (SendMessage built.1 built.2 envelopeUnknown false).1 = built.2 :=
  SendMessage_not_registered built.1 built.2 envelopeUnknown false headerUnknown "OnError" rfl
    (by decide) (by decide)

theorem SendMessage_enqueues_one_request_witness :
    (SendMessage built.1 built.2 envelope false).2 = .ok none
      ∧ (SendMessage built.1 built.2 envelope false).1[0]?
          = some { cap := 1024
                   buf := [{ Method := "POST"
                             Endpoints := ["http://a", "http://b"]
                             Payload := { Body := some envelope } }] }
      ∧ ∀ q : ChanRef, q ≠ 0 →
          (SendMessage built.1 built.2 envelope false).1[q]? = built.2[q]? :=
  SendMessage_enqueues_one_request built.1 built.2 envelope false header "OnAdd"
    { Method := "POST"
      URL := ["http://a", "http://b"]
      RequestQueue := { Name := "OnAdd", Queue := 0 } }
    { cap := 1024, buf := [] } rfl (by decide) (by decide) (by decide) (by decide) (by decide)
    (by decide)

theorem EnqueueRequest_full_times_out_witness :
    EnqueueRequest heapSecondFull 1 (createRequest recordSecond envelope) false
      = (heapSecondFull, some (GoError.new "request could not be enqueued due to timeout")) :=
  EnqueueRequest_full_times_out heapSecondFull 1 { cap := 1, buf := [earlier] }
    (createRequest recordSecond envelope) (by decide) (by decide)

theorem EnqueueRequest_fifo_witness :
    (enqueueAll heapEmpty 1
        [(createRequest recordFirst envelope, false), (earlier, true)]).2 = [none, none]
      ∧ ∃ h₂, recvN (enqueueAll heapEmpty 1
          [(createRequest recordFirst envelope, false), (earlier, true)]).1 1 2
            = some ([createRequest recordFirst envelope, earlier], h₂) :=
  EnqueueRequest_fifo.2 heapEmpty 1 2
    [(createRequest recordFirst envelope, false), (earlier, true)] (by decide) (by decide)

/-- C5, the claim as stated fails, in two ways. First, `OnAdd` is registered
twice and the queue of the second record is full and not drained: `Get`
returns the second record, but `SendMessage` returns the timeout error and
enqueues nothing. Second, the two records registered for `OnAdd` share
channel 0: `SendMessage` returns nil and the queue of the first record, empty
before, holds the new request. -/
theorem Register_twice_full_or_shared_queue :
    (registryTwice.Get "OnAdd" = .ok recordSecond
        ∧ SendMessage relayTwice heapSecondFull envelope false
            = (heapSecondFull,
                .ok (some (GoError.new "request could not be enqueued due to timeout"))))
      ∧ (registryShared.Get "OnAdd" = .ok recordShared
        ∧ (SendMessage relayShared heapEmpty envelope false).2 = .ok none
        ∧ heapEmpty[recordFirst.RequestQueue.Queue]? = some { cap := 2, buf := [] }
        ∧ (SendMessage relayShared heapEmpty envelope false).1[recordFirst.RequestQueue.Queue]?
            = some { cap := 2, buf := [createRequest recordShared envelope] }) := by
  refine ⟨⟨rfl, ?_⟩, rfl, ?_, ?_, ?_⟩ <;> decide

theorem Register_twice_routes_to_second_witness :
    registryTwice.Get "OnAdd" = .ok recordSecond
      ∧ ((0 : ChanRef) ≠ 1 →
          (SendMessage relayTwice heapSecondFull envelope false).1[0]? = heapSecondFull[0]?)
      ∧ ((SendMessage relayTwice heapEmpty envelope false).2 = .ok none
        ∧ (SendMessage relayTwice heapEmpty envelope false).1[1]?
            = some { cap := 2
                     buf := [{ Method := "PUT"
                               Endpoints := ["http://b"]
                               Payload := { Body := some envelope } }] })
      ∧ ((SendMessage relayTwice heapSecondFull envelope true).2 = .ok none
        ∧ (SendMessage relayTwice heapSecondFull envelope true).1[1]?
            = some { cap := 1
                     buf := [{ Method := "PUT"
                               Endpoints := ["http://b"]
                               Payload := { Body := some envelope } }] }) :=
  ⟨(Register_twice_routes_to_second relayTwice { Records := [] } "OnAdd" recordFirst
      recordSecond heapEmpty envelope false header rfl (by decide) (by decide)).1,
    (Register_twice_routes_to_second relayTwice { Records := [] } "OnAdd" recordFirst
      recordSecond heapSecondFull envelope false header rfl (by decide) (by decide)).2.2.2.1,
    (Register_twice_routes_to_second relayTwice { Records := [] } "OnAdd" recordFirst
      recordSecond heapEmpty envelope false header rfl (by decide) (by decide)).2.2.2.2.1
        { cap := 2, buf := [] } (by decide) (by decide),
    (Register_twice_routes_to_second relayTwice { Records := [] } "OnAdd" recordFirst
      recordSecond heapSecondFull envelope true header rfl (by decide) (by decide)).2.2.2.2.2
        { cap := 1, buf := [earlier] } (by decide) (by decide) rfl⟩

/-- C9, the claim as stated fails: with `WorkerReplicas = 3074457345618258603`
the product by three is `2^63 + 1`, which is negative as an `int`; `make`
panics and `NewRelayHTTP` yields no registry. -/
theorem NewRelayHTTP_panics_on_negative_length :
    wrapInt (configWrapsNegative.WorkerReplicas * 3) = -9223372036854775807
      ∧ NewRelayHTTP EventSources.library maxLen ([] : Heap String) configWrapsNegative ()
          = .panic "makeslice: len out of range" := by
  decide

theorem NewRelayHTTP_registry_witness :
    NewRelayHTTP EventSources.library maxLen ([] : Heap String) config () = .ok built
      ∧ built.1.Registry.Records.keys = ["OnAdd", "OnUpdate", "OnDelete"]
      ∧ built.1.Registry.Get "OnAdd"
          = .ok { Method := "POST"
                  URL := ["http://a", "http://b"]
                  RequestQueue := { Name := "OnAdd", Queue := 0 } } :=
  ⟨by decide,
    ((NewRelayHTTP_registry EventSources.library maxLen ([] : Heap String) config ()
      (by decide)).2.2.1 built.1 built.2 (by decide)).1,
    ((NewRelayHTTP_registry EventSources.library maxLen ([] : Heap String) config ()
      (by decide)).2.2.1 built.1 built.2 (by decide)).2.1⟩

/-- C10, the claim as stated fails: with `WorkerReplicas = 6148914691236517206`
the product by three is `2^64 + 2`, which is 2 as an `int`; `NewRelayHTTP`
returns a relay with that replica count and a pool of two slots. -/
theorem NewRelayHTTP_pool_of_wrapped_length :
    (NewRelayHTTP EventSources.library maxLen ([] : Heap String) configWrapsToTwo
        ()).toOption.map (fun result => (result.1.workerReplicas, result.1.Workers.length))
      = some (6148914691236517206, 2)
      ∧ (6148914691236517206 : Int) * 3 ≠ 2 := by
  decide

theorem NewRelayHTTP_replicas_witness :
    built.1.workerReplicas = 2
      ∧ (built.1.Workers.length : Int) = wrapInt (built.1.workerReplicas * 3)
      ∧ (built.1.workerReplicas * 3 < 2 ^ 63 →
          (built.1.Workers.length : Int) = built.1.workerReplicas * 3) :=
  (NewRelayHTTP_replicas EventSources.library maxLen ([] : Heap String) config ()).2.1
    built.1 built.2 (by decide)

/-- The pool at the configuration with two replicas: it has six slots, the
first three hold the workers `OnAdd2`, `OnUpdate2` and `OnDelete2`, the other
three are nil, and the add queue has one worker, not two. -/
theorem InitWorkers_two_replicas_pool :
    (InitWorkers built.1 built.1.Registry.Records built.1.workerReplicas ()).map
        (fun relay => relay.Workers)
      = some [some { name := "OnAdd2", queue := { Name := "OnAdd", Queue := 0 }, client := () },
              some { name := "OnUpdate2", queue := { Name := "OnUpdate", Queue := 1 },
                     client := () },
              some { name := "OnDelete2", queue := { Name := "OnDelete", Queue := 2 },
                     client := () },
              none, none, none]
      ∧ built.1.workerReplicas = 2
      ∧ (InitWorkers built.1 built.1.Registry.Records built.1.workerReplicas ()).map
          (fun relay => (workersOn relay.Workers 0).length) = some 1 := by
  decide

theorem InitWorkers_one_worker_per_kind_witness :
    ∃ relay : RelayHTTP Unit,
      InitWorkers built.1 built.1.Registry.Records built.1.workerReplicas () = some relay
        ∧ relay.Workers
            = built.1.Registry.Records.map (fun entry =>
                some (NewWorker
                  (entry.2.RequestQueue.Name ++ strconv.Itoa relay.workerReplicas)
                  entry.2.RequestQueue ()))
              ++ List.replicate (3 * relay.workerReplicas.toNat - 3) none
        ∧ (workersOn relay.Workers 0).length = 1
        ∧ (workersOn relay.Workers 1).length = 1
        ∧ (workersOn relay.Workers 2).length = 1 :=
  InitWorkers_one_worker_per_kind EventSources.library maxLen ([] : Heap String) config ()
    built.1 built.2 built.1.Registry.Records (by decide) (by decide) (by decide)
    (List.Perm.refl _)

theorem Payload_Read_truncates_witness :
    (Payload.Read encEnvelope { Body := some envelope } (List.replicate 4 0)).2
        = (4, some GoError.EOF)
      ∧ readToEOF (Payload.Read encEnvelope { Body := some envelope }) 4 1 []
          = some (.ok [123, 34, 66, 111])
      ∧ ((4 : Nat) < 22 → ([123, 34, 66, 111] : List Byte)
          ≠ [123, 34, 66, 111, 100, 121, 34, 58, 123, 34, 104, 101, 97, 100, 101, 114, 34, 58,
              123, 125, 125, 125]) :=
  Payload_Read_truncates encEnvelope { Body := some envelope }
    [123, 34, 66, 111, 100, 121, 34, 58, 123, 34, 104, 101, 97, 100, 101, 114, 34, 58,
      123, 125, 125, 125] 4 0 rfl

end Concrete

end Broker
